import Mathlib

/-!
# Verification of the medusa hooks library and pricing module

A shallow embedding of the parts of the repository that the specification
talks about:

* the query-key invalidation bookkeeping of the `medusa-react` hooks library
  (`buildCustomOptions`, `invalidateRelatedDomain`, the per-hook query-key
  lists, the `swapKey` factory);
* the price-list CRUD service of the pricing module;
* two REST route handlers (list shipping options, delete product).

Query keys are lists of strings; mutation option records carry an optional
caller `onSuccess` plus opaque further fields; the effect of a built
`onSuccess` handler is recorded as an ordered list of events.
-/

namespace Medusa

/-- A react-query query key: an array of string segments. -/
abbrev QueryKey := List String

/-- Modelled from the spec: the `queryKeysFactory` utility of the hooks
library (its source file `utils/index` is not under `src/`; `part_001` and
`part_004` show its use).  From a global key it builds the domain-wide key
`all`, the list keys `lists`, and the detail key `detail id`, each extending
`all`, per the spec's query-key invalidation bookkeeping. -/
structure QueryKeysFactory where
  all : QueryKey
  lists : QueryKey
  details : QueryKey
  detail : String → QueryKey

/-- Modelled from the spec: the conventional factory body, building every key
set from the single global key. -/
def queryKeysFactory (globalKey : String) : QueryKeysFactory where
  all := [globalKey]
  lists := [globalKey, "list"]
  details := [globalKey, "detail"]
  detail := fun id => [globalKey, "detail", id]

/-- `ADMIN_RETURNS_REASONS_QUERY_KEY` from `part_001` (the naming pattern for
the domain constants below). -/
def ADMIN_RETURNS_REASONS_QUERY_KEY : String := "admin_return_reasons"

/-- `adminReturnReasonKeys` from `part_001`. -/
def adminReturnReasonKeys : QueryKeysFactory :=
  queryKeysFactory ADMIN_RETURNS_REASONS_QUERY_KEY

/-- Modelled from the spec: the admin product key factory (its source file is
not under `src/`); the global key follows the naming pattern of `part_001`. -/
def adminProductKeys : QueryKeysFactory := queryKeysFactory "admin_products"

/-- Modelled from the spec: the admin customer key factory (source not under
`src/`). -/
def adminCustomerKeys : QueryKeysFactory := queryKeysFactory "admin_customers"

/-- Modelled from the spec: the admin customer-group key factory (source not
under `src/`). -/
def adminCustomerGroupKeys : QueryKeysFactory :=
  queryKeysFactory "admin_customer_groups"

/-- Modelled from the spec: the admin order key factory (source not under
`src/`). -/
def adminOrderKeys : QueryKeysFactory := queryKeysFactory "admin_orders"

/-- Modelled from the spec: the admin discount key factory (source not under
`src/`). -/
def adminDiscountKeys : QueryKeysFactory := queryKeysFactory "admin_discounts"

/-- Modelled from the spec: the admin gift-card key factory (source not under
`src/`). -/
def adminGiftCardKeys : QueryKeysFactory := queryKeysFactory "admin_gift_cards"

/-- Modelled from the spec: the admin price-list key factory (source not under
`src/`). -/
def adminPriceListKeys : QueryKeysFactory :=
  queryKeysFactory "admin_price_lists"

/-- Modelled from the spec: the admin stock-location key factory imported by
`part_002` from `./queries` (not under `src/`). -/
def adminStockLocationsKeys : QueryKeysFactory :=
  queryKeysFactory "admin_stock_locations"

/-- Modelled from the spec: the admin variant key factory (source not under
`src/`). -/
def adminVariantKeys : QueryKeysFactory := queryKeysFactory "admin_variants"

/-- The `RelatedDomain` union type of `part_000`. -/
inductive RelatedDomain
  | product
  | customer
  | customer_group
  | order
  | discount
  | gift_card
  | price_list
  deriving DecidableEq, Repr, Fintype

/-- The `RelatedDomains` map of `part_000`: an optional boolean flag per
related domain (`none` models an absent property). -/
structure RelatedDomains where
  product : Option Bool := none
  customer : Option Bool := none
  customer_group : Option Bool := none
  order : Option Bool := none
  discount : Option Bool := none
  gift_card : Option Bool := none
  price_list : Option Bool := none
  deriving DecidableEq, Repr

/-- Property lookup `relatedDomains[key]` of `part_000`. -/
def RelatedDomains.flag (rd : RelatedDomains) : RelatedDomain → Option Bool
  | .product => rd.product
  | .customer => rd.customer
  | .customer_group => rd.customer_group
  | .order => rd.order
  | .discount => rd.discount
  | .gift_card => rd.gift_card
  | .price_list => rd.price_list

/-- The declaration order of the `RelatedDomain` keys, which is the iteration
order of `Object.keys` over an object literal listing them in that order. -/
def RelatedDomain.enumerate : List RelatedDomain :=
  [.product, .customer, .customer_group, .order, .discount, .gift_card,
   .price_list]

/-- `invalidateRelatedDomain` from `part_000`: the query key invalidated for a
related domain is the `all` key of that domain's factory. -/
def invalidateRelatedDomain : RelatedDomain → QueryKey
  | .product => adminProductKeys.all
  | .customer => adminCustomerKeys.all
  | .customer_group => adminCustomerGroupKeys.all
  | .order => adminOrderKeys.all
  | .discount => adminDiscountKeys.all
  | .gift_card => adminGiftCardKeys.all
  | .price_list => adminPriceListKeys.all

/-- One observable action of a built `onSuccess` handler: a
`queryClient.invalidateQueries` call, or the call into the caller-supplied
`onSuccess`. -/
inductive Event
  | invalidate (key : QueryKey)
  | callerSuccess
  deriving DecidableEq, Repr

/-- The caller-facing `UseMutationOptions` record: an optional `onSuccess`
callback plus opaque further fields (`onError`, `onSettled`, `retry`). -/
structure MutationOptions (Args Ret : Type) where
  onSuccess : Option (Args → Ret) := none
  onError : Option Nat := none
  onSettled : Option Nat := none
  retry : Option Nat := none

/-- The record returned by the option builders: the wrapped `onSuccess`
produces the ordered list of events it performs together with the value it
returns (`none` models returning `undefined`), and the remaining fields are
carried over. -/
structure BuiltOptions (Args Ret : Type) where
  onSuccess : Args → List Event × Option Ret
  onError : Option Nat := none
  onSettled : Option Nat := none
  retry : Option Nat := none

/-- The related domains whose flag is truthy, in iteration order — the
domains for which the `Object.keys` loop of `buildCustomOptions` calls
`invalidateRelatedDomain`. -/
def RelatedDomains.trueDomains (rd : RelatedDomains) : List RelatedDomain :=
  RelatedDomain.enumerate.filter (fun d => rd.flag d = some true)

/-- `buildCustomOptions` from `part_000`: spreads the caller options, replacing
`onSuccess` with a handler that first invalidates every key of the query-key
list (when one was given), then invalidates each truthy related domain, and
finally tail-calls the caller's `onSuccess` when one was supplied, returning
its value. -/
def buildCustomOptions {Args Ret : Type} (queryKey : Option (List QueryKey))
    (options : Option (MutationOptions Args Ret))
    (relatedDomains : Option RelatedDomains) : BuiltOptions Args Ret where
  onSuccess := fun args =>
    let keyEvents : List Event :=
      match queryKey with
      | some ks => ks.map Event.invalidate
      | none => []
    let domainEvents : List Event :=
      match relatedDomains with
      | some rd => rd.trueDomains.map (fun d =>
          Event.invalidate (invalidateRelatedDomain d))
      | none => []
    match options with
    | some o =>
      match o.onSuccess with
      | some f => (keyEvents ++ domainEvents ++ [Event.callerSuccess],
                   some (f args))
      | none => (keyEvents ++ domainEvents, none)
    | none => (keyEvents ++ domainEvents, none)
  onError := match options with | some o => o.onError | none => none
  onSettled := match options with | some o => o.onSettled | none => none
  retry := match options with | some o => o.retry | none => none

/-- Modelled from the spec: `buildOptions` of the hooks library
(`utils/buildOptions` is not under `src/`, only its call sites in `part_002`
are).  Per the spec's cache-aware mutations, the built `onSuccess` invalidates
every key of the given list and then tail-calls the caller's `onSuccess`; the
other option fields are carried over. -/
def buildOptions {Args Ret : Type} (queryKeys : Option (List QueryKey))
    (options : Option (MutationOptions Args Ret)) : BuiltOptions Args Ret :=
  buildCustomOptions queryKeys options none

/-- The query key an event invalidates, when it is an invalidation. -/
def Event.invalidatedKey : Event → Option QueryKey
  | .invalidate k => some k
  | .callerSuccess => none

/-- The list of query keys (in order) that a built `onSuccess` handler
invalidates. -/
def BuiltOptions.invalidations {Args Ret : Type} (b : BuiltOptions Args Ret)
    (args : Args) : List QueryKey :=
  (b.onSuccess args).1.filterMap Event.invalidatedKey

/-- The mutation hooks appearing in the provided source: the stock-location
hooks of `part_002`, the custom admin hooks of `part_000`, and the store
return-creation hook of `part_003`.  Constructor arguments are the hook
arguments that determine its query keys. -/
inductive MutationHook
  | createStockLocation
  | updateStockLocation (id : String)
  | deleteStockLocation (id : String)
  | adminCustomPost (queryKey : List QueryKey) (rd : Option RelatedDomains)
  | adminCustomDelete (queryKey : List QueryKey) (rd : Option RelatedDomains)
  | createReturn

/-- The mutation options each hook hands to `useMutation`, as built in the
source: `part_002` routes the listed keys through `buildOptions`, `part_000`
routes the caller key list and related domains through `buildCustomOptions`,
and `useCreateReturn` in `part_003` passes the caller options through
untouched (no query client, no invalidation). -/
def MutationHook.builtOptions {Args Ret : Type} :
    MutationHook → Option (MutationOptions Args Ret) → BuiltOptions Args Ret
  | .createStockLocation, options =>
      buildOptions (some [adminStockLocationsKeys.lists]) options
  | .updateStockLocation id, options =>
      buildOptions
        (some [adminStockLocationsKeys.lists, adminStockLocationsKeys.detail id])
        options
  | .deleteStockLocation id, options =>
      buildOptions
        (some [adminStockLocationsKeys.lists,
               adminStockLocationsKeys.detail id,
               adminVariantKeys.all,
               adminProductKeys.lists])
        options
  | .adminCustomPost queryKey rd, options =>
      buildCustomOptions (some queryKey) options rd
  | .adminCustomDelete queryKey rd, options =>
      buildCustomOptions (some queryKey) options rd
  | .createReturn, options =>
      { onSuccess := fun args =>
          ([], (match options with
                | some o => o.onSuccess.map (fun f => f args)
                | none => none))
        onError := match options with | some o => o.onError | none => none
        onSettled := match options with | some o => o.onSettled | none => none
        retry := match options with | some o => o.retry | none => none }

/-- The query keys a hook's success handler invalidates, with no
caller-supplied options. -/
def MutationHook.invalidatedKeys (h : MutationHook) : List QueryKey :=
  (h.builtOptions (none : Option (MutationOptions Unit Unit))).invalidations ()

/-- `SWAPS_QUERY_KEY` from `part_004`. -/
def SWAPS_QUERY_KEY : String := "swaps"

/-- The domain-wide swaps key: `queryKeysFactory(SWAPS_QUERY_KEY).all` spread
into the `swapKey` object of `part_004`. -/
def swapKey_all : QueryKey := (queryKeysFactory SWAPS_QUERY_KEY).all

/-- `swapKey.cart` from `part_004`: `[...swapKey.all, "cart", cartId]`. -/
def swapKey_cart (cartId : String) : QueryKey :=
  swapKey_all ++ ["cart", cartId]

/-- react-query key matching: `invalidateQueries(base)` invalidates every
cached query whose key extends `base` segment by segment. -/
def coveredBy (base key : QueryKey) : Prop := base <+: key

/-!
## The price-list service of the pricing module

Only the service's tests (`part_005`) are under `src/`; the service itself is
modelled from the spec's description of it as a conventional relational
CRUD/filtering layer over price lists, with the error messages the tests pin
down. -/

/-- A value stored in a price-list column: a string (the id) or an optional
date, dates being opaque naturals. -/
inductive FieldValue
  | str (s : String)
  | date (d : Option Nat)
  deriving DecidableEq, Repr

/-- Modelled from the spec: a price-list row with its id and the date columns
the tests exercise. -/
structure PriceList where
  id : String
  starts_at : Option Nat := none
  ends_at : Option Nat := none
  deriving DecidableEq, Repr

/-- The named columns of a price-list row, for field selection. -/
def PriceList.fields (pl : PriceList) : List (String × FieldValue) :=
  [("id", .str pl.id), ("starts_at", .date pl.starts_at),
   ("ends_at", .date pl.ends_at)]

/-- Modelled from the spec: the filter accepted by the list operations — an
optional id list, matching rows whose id is among them. -/
structure PriceListFilter where
  id : Option (List String) := none
  deriving DecidableEq, Repr

/-- Whether a row matches a filter. -/
def matchesFilter (f : PriceListFilter) (pl : PriceList) : Bool :=
  match f.id with
  | none => true
  | some ids => ids.contains pl.id

/-- Modelled from the spec: the find options of the list operations —
pagination (`skip`/`take`) and field selection (`select`). -/
structure FindConfig where
  skip : Option Nat := none
  take : Option Nat := none
  select : Option (List String) := none
  deriving DecidableEq, Repr

/-- Modelled from the spec: `listPriceLists` — the rows matching the
filter. -/
def listPriceLists (store : List PriceList) (f : PriceListFilter) :
    List PriceList :=
  store.filter (matchesFilter f)

/-- Pagination: drop `skip` rows when given, then keep `take` rows when
given. -/
def applyPagination {α : Type} (cfg : FindConfig) (xs : List α) : List α :=
  let afterSkip := match cfg.skip with
    | some n => xs.drop n
    | none => xs
  match cfg.take with
  | some n => afterSkip.take n
  | none => afterSkip

/-- Field selection: a row serialised to its selected columns (all columns
when no `select` is given). -/
def selectFields (sel : Option (List String)) (pl : PriceList) :
    List (String × FieldValue) :=
  match sel with
  | none => pl.fields
  | some cols => pl.fields.filter (fun kv => cols.contains kv.1)

/-- Modelled from the spec: `listAndCountPriceLists` — the matching rows,
paginated and restricted to the selected fields, paired with the total count
of matching rows (counted before pagination). -/
def listAndCountPriceLists (store : List PriceList) (f : PriceListFilter)
    (cfg : FindConfig) : List (List (String × FieldValue)) × Nat :=
  let matched := listPriceLists store f
  ((applyPagination cfg matched).map (selectFields cfg.select),
   matched.length)

/-- Modelled from the spec: `retrievePriceList` — fails when the id argument
is `undefined`, fails with a not-found message when no row has the id, and
returns the row otherwise.  The messages are those the tests in `part_005`
expect. -/
def retrievePriceList (store : List PriceList) (priceListId : Option String) :
    Except String PriceList :=
  match priceListId with
  | none => .error "\"priceListId\" must be defined"
  | some id =>
    match store.find? (fun pl => pl.id = id) with
    | some pl => .ok pl
    | none => .error ("PriceList with id: " ++ id ++ " was not found")

/-- Modelled from the spec: `deletePriceLists` — removes every row whose id is
among the given ids. -/
def deletePriceLists (store : List PriceList) (ids : List String) :
    List PriceList :=
  store.filter (fun pl => !(ids.contains pl.id))

/-- Modelled from the spec: one update datum for `updatePriceLists` — the id
of the row to update and the new column values to set. -/
structure PriceListUpdate where
  id : String
  starts_at : Option Nat := none
  ends_at : Option Nat := none
  deriving DecidableEq, Repr

/-- Apply one update to a row. -/
def applyUpdate (u : PriceListUpdate) (pl : PriceList) : PriceList :=
  { pl with
    starts_at := match u.starts_at with
      | some d => some d
      | none => pl.starts_at
    ends_at := match u.ends_at with
      | some d => some d
      | none => pl.ends_at }

/-- Modelled from the spec: `updatePriceLists` — processes the updates in
order; an update whose id matches no row fails the whole call with the
not-found message the tests in `part_005` expect. -/
def updatePriceLists (store : List PriceList) :
    List PriceListUpdate → Except String (List PriceList)
  | [] => .ok store
  | u :: rest =>
    if store.any (fun pl => pl.id = u.id) then
      updatePriceLists
        (store.map (fun pl => if pl.id = u.id then applyUpdate u pl else pl))
        rest
    else
      .error ("PriceList with id \"" ++ u.id ++ "\" not found")

/-!
## REST route handlers

`list-shipping-options.ts` and `delete-product.ts` are under `src/`.  The
`validator` utility, the `optionalBooleanMapper`, and the default
field/relation lists they import are not; those are modelled from the spec. -/

/-- A raw query-string value as Express parses it: a single string or an array
of strings. -/
inductive QueryVal
  | str (s : String)
  | arr (ss : List String)
  deriving DecidableEq, Repr

/-- The raw query of a GET shipping-options request: the three parameters the
DTO declares, each possibly absent. -/
structure RawShippingOptionsQuery where
  region_id : Option QueryVal := none
  is_return : Option QueryVal := none
  admin_only : Option QueryVal := none
  deriving DecidableEq, Repr

/-- Modelled from the spec: `optionalBooleanMapper` of
`utils/validators/is-boolean` (not under `src/`) — maps the strings `"true"`
and `"false"` to the corresponding booleans and anything else to nothing. -/
def optionalBooleanMapper (s : String) : Option Bool :=
  if s = "true" then some true
  else if s = "false" then some false
  else none

/-- The mapper applied to a raw query value: only a plain string can map to a
boolean. -/
def mapOptionalBoolean : QueryVal → Option Bool
  | .str s => optionalBooleanMapper s
  | .arr _ => none

/-- The validated `AdminGetShippingOptionsParams` DTO of
`list-shipping-options.ts`. -/
structure AdminGetShippingOptionsParams where
  region_id : Option String := none
  is_return : Option Bool := none
  admin_only : Option Bool := none
  deriving DecidableEq, Repr

/-- Modelled from the spec: the `IsOptional`/`IsString` validation of the
`region_id` property — absent is fine, a present value must be a plain
string. -/
def validateRegionId : Option QueryVal → Except String (Option String)
  | none => .ok none
  | some (.str s) => .ok (some s)
  | some (.arr _) => .error "region_id must be a string"

/-- Modelled from the spec: the `IsOptional`/`IsBoolean` validation with the
`optionalBooleanMapper` transform of `is_return` and `admin_only` — absent is
fine, a present value must map to a boolean through the mapper. -/
def validateOptionalBoolean (label : String) :
    Option QueryVal → Except String (Option Bool)
  | none => .ok none
  | some v =>
    match mapOptionalBoolean v with
    | some b => .ok (some b)
    | none => .error (label ++ " must be a boolean")

/-- Modelled from the spec: the `validator` utility applied to
`AdminGetShippingOptionsParams` (the utility is not under `src/`; the DTO's
decorators are).  Each declared property is validated independently and the
validated DTO assembled. -/
def validateShippingOptionsParams (q : RawShippingOptionsQuery) :
    Except String AdminGetShippingOptionsParams := do
  let region_id ← validateRegionId q.region_id
  let is_return ← validateOptionalBoolean "is_return" q.is_return
  let admin_only ← validateOptionalBoolean "admin_only" q.admin_only
  pure { region_id, is_return, admin_only }

/-- A shipping option row, opaque to the handler. -/
abbrev ShippingOption := String

/-- The select/relations configuration the handler passes to
`listAndCount`. -/
structure SOListConfig where
  select : List String
  relations : List String
  deriving DecidableEq, Repr

/-- Modelled from the spec: `defaultFields` of the shipping-options route
index (not under `src/`). -/
def shippingOptionDefaultFields : List String :=
  ["id", "name", "region_id", "price_type", "amount", "is_return",
   "admin_only"]

/-- Modelled from the spec: `defaultRelations` of the shipping-options route
index (not under `src/`). -/
def shippingOptionDefaultRelations : List String :=
  ["region", "profile", "requirements"]

/-- The configuration literal the handler builds:
`{ select: defaultFields, relations: defaultRelations }`. -/
def shippingOptionListConfig : SOListConfig where
  select := shippingOptionDefaultFields
  relations := shippingOptionDefaultRelations

/-- The response of the GET shipping-options handler: a status and JSON body,
or the validation failure that rejected the request. -/
inductive SOResponse
  | ok (status : Nat) (shipping_options : List ShippingOption) (count : Nat)
  | validationFailure (msg : String)
  deriving DecidableEq, Repr

/-- The GET shipping-options route handler of `list-shipping-options.ts`,
parametrised by the resolved `shippingOptionService.listAndCount`.  It
validates the query, and only on success resolves the service, calls it once
with the validated params and the default fields/relations, and responds with
status 200 and a body of the `shipping_options` array and the `count`.  The
first component records every service call made. -/
def listShippingOptionsHandler
    (listAndCount :
      AdminGetShippingOptionsParams → SOListConfig →
        List ShippingOption × Nat)
    (q : RawShippingOptionsQuery) :
    List (AdminGetShippingOptionsParams × SOListConfig) × SOResponse :=
  match validateShippingOptionsParams q with
  | .error m => ([], .validationFailure m)
  | .ok params =>
    let r := listAndCount params shippingOptionListConfig
    ([(params, shippingOptionListConfig)], .ok 200 r.1 r.2)

/-- One observable step of the DELETE product handler. -/
inductive DeleteProductEvent
  | transactionStart
  | serviceDelete (id : String)
  | transactionEnd
  deriving DecidableEq, Repr

/-- The body of the DELETE product success response. -/
structure DeleteProductBody where
  id : String
  object : String
  deleted : Bool
  deriving DecidableEq, Repr

/-- The DELETE `/admin/products/{id}` route handler of `delete-product.ts`,
parametrised by the resolved `productService.delete` (which may fail).  It
runs the service call inside one transaction and, when the call succeeds,
responds with `{ id, object: "product", deleted: true }`.  The first
component records the handler's steps in order; the second is the JSON
response, or the propagated service error. -/
def deleteProductHandler {E : Type}
    (serviceDelete : String → Except E Unit) (id : String) :
    List DeleteProductEvent × Except E DeleteProductBody :=
  match serviceDelete id with
  | .ok _ =>
    ([.transactionStart, .serviceDelete id, .transactionEnd],
     .ok { id := id, object := "product", deleted := true })
  | .error e =>
    ([.transactionStart, .serviceDelete id], .error e)

/-!
## Helper definitions and lemmas for the theorems
-/

/-- The key factory belonging to each related domain, per the imports of
`part_000` (the spec-side association of a domain with its whole key set). -/
def domainKeyFactory : RelatedDomain → QueryKeysFactory
  | .product => adminProductKeys
  | .customer => adminCustomerKeys
  | .customer_group => adminCustomerGroupKeys
  | .order => adminOrderKeys
  | .discount => adminDiscountKeys
  | .gift_card => adminGiftCardKeys
  | .price_list => adminPriceListKeys

/-- The events a handler performs strictly before its first call into the
caller-supplied `onSuccess`. -/
def beforeCallerSuccess (evs : List Event) : List Event :=
  evs.takeWhile (fun e => !(e == Event.callerSuccess))

theorem beforeCallerSuccess_append (pre rest : List Event)
    (hpre : ∀ e ∈ pre, e ≠ Event.callerSuccess) :
    beforeCallerSuccess (pre ++ rest) = pre ++ beforeCallerSuccess rest := by
  induction pre with
  | nil => rfl
  | cons e t ih =>
    have he : e ≠ Event.callerSuccess := hpre e (by simp)
    have ht : ∀ x ∈ t, x ≠ Event.callerSuccess := fun x hx =>
      hpre x (by simp [hx])
    have hb : (e == Event.callerSuccess) = false := beq_eq_false_iff_ne.mpr he
    simp [beforeCallerSuccess, List.takeWhile, hb]
    simpa [beforeCallerSuccess] using ih ht

@[simp]
theorem filterMap_invalidatedKey_comp {α : Type} (g : α → QueryKey)
    (l : List α) :
    l.filterMap (Event.invalidatedKey ∘ fun a => Event.invalidate (g a)) =
      l.map g := by
  induction l with
  | nil => rfl
  | cons a t ih => simp [Event.invalidatedKey, ih]

@[simp]
theorem filterMap_invalidatedKey_id (ks : List QueryKey) :
    ks.filterMap (Event.invalidatedKey ∘ Event.invalidate) = ks := by
  induction ks with
  | nil => rfl
  | cons a t ih => simp [Event.invalidatedKey, ih]

/-- The related-domain `all` keys a flag map asks to invalidate (spec-side
description: the whole key set of every domain whose flag is truthy). -/
def relatedDomainInvalidations : Option RelatedDomains → List QueryKey
  | none => []
  | some rd => rd.trueDomains.map invalidateRelatedDomain

/-- The query keys the spec promises each mutation hook invalidates on
success: the key lists given at the hook's call site, plus the flagged
related-domain key sets for the custom hooks, and nothing for
`useCreateReturn`. -/
def specInvalidations : MutationHook → List QueryKey
  | .createStockLocation => [adminStockLocationsKeys.lists]
  | .updateStockLocation id =>
      [adminStockLocationsKeys.lists, adminStockLocationsKeys.detail id]
  | .deleteStockLocation id =>
      [adminStockLocationsKeys.lists, adminStockLocationsKeys.detail id,
       adminVariantKeys.all, adminProductKeys.lists]
  | .adminCustomPost qk rd => qk ++ relatedDomainInvalidations rd
  | .adminCustomDelete qk rd => qk ++ relatedDomainInvalidations rd
  | .createReturn => []

/-!
## Theorems
-/

/-- Claim C9: `buildCustomOptions` changes only the `onSuccess` field of the
options it is given — `onError`, `onSettled` and `retry` are carried over
unchanged — and the wrapped `onSuccess` returns exactly the value of the
caller's `onSuccess` applied to the same arguments, `undefined` (`none`) when
the caller supplied none. -/
theorem buildCustomOptions_frame {Args Ret : Type}
    (queryKey : Option (List QueryKey)) (opts : MutationOptions Args Ret)
    (rd : Option RelatedDomains) (args : Args) :
    (buildCustomOptions queryKey (some opts) rd).onError = opts.onError ∧
    (buildCustomOptions queryKey (some opts) rd).onSettled = opts.onSettled ∧
    (buildCustomOptions queryKey (some opts) rd).retry = opts.retry ∧
    ((buildCustomOptions queryKey (some opts) rd).onSuccess args).2 =
      opts.onSuccess.map (fun f => f args) := by
  refine ⟨rfl, rfl, rfl, ?_⟩
  cases h : opts.onSuccess <;> simp [buildCustomOptions, h]

/-- Claim C10: the cart-scoped swap key `swapKey.cart cartId` is exactly the
domain-wide key `swapKey.all` extended by `["cart", cartId]`, hence is covered
by any invalidation of the swaps domain, and distinct cart ids yield distinct
query keys. -/
theorem swapKey_cart_spec (cid cid' : String) :
    swapKey_cart cid = swapKey_all ++ ["cart", cid] ∧
    coveredBy swapKey_all (swapKey_cart cid) ∧
    (cid ≠ cid' → swapKey_cart cid ≠ swapKey_cart cid') := by
  refine ⟨rfl, ⟨["cart", cid], rfl⟩, fun hne heq => hne ?_⟩
  simpa [swapKey_cart, swapKey_all, queryKeysFactory] using heq

/-- Claim C10 witness: the property at the concrete cart ids `"cart_1"` and
`"cart_2"`. -/
theorem swapKey_cart_spec_witness :
    swapKey_cart "cart_1" = swapKey_all ++ ["cart", "cart_1"] ∧
    coveredBy swapKey_all (swapKey_cart "cart_1") ∧
    swapKey_cart "cart_1" ≠ swapKey_cart "cart_2" :=
  ⟨(swapKey_cart_spec "cart_1" "cart_2").1,
   (swapKey_cart_spec "cart_1" "cart_2").2.1,
   (swapKey_cart_spec "cart_1" "cart_2").2.2 (by decide)⟩

/-- Claim C1: the `onSuccess` handler built by `buildCustomOptions` from a
query-key list and a related-domains map invalidates every key of the list
and, for every related domain whose flag is `true`, the whole key set of
exactly that domain (its key factory's `all` key — the domain-to-key
assignment being injective), and all of this happens strictly before any call
into the caller-supplied `onSuccess`. -/
theorem buildCustomOptions_invalidates_before_callback {Args Ret : Type}
    (ks : List QueryKey) (rd : RelatedDomains)
    (opts : MutationOptions Args Ret) (args : Args) :
    (∀ k ∈ ks, Event.invalidate k ∈ beforeCallerSuccess
      ((buildCustomOptions (some ks) (some opts) (some rd)).onSuccess
        args).1) ∧
    (∀ d : RelatedDomain, rd.flag d = some true →
      Event.invalidate (invalidateRelatedDomain d) ∈ beforeCallerSuccess
        ((buildCustomOptions (some ks) (some opts) (some rd)).onSuccess
          args).1) ∧
    (∀ d : RelatedDomain,
      invalidateRelatedDomain d = (domainKeyFactory d).all) ∧
    Function.Injective invalidateRelatedDomain := by
  have hevs :
      ((buildCustomOptions (some ks) (some opts) (some rd)).onSuccess
        args).1 =
      (ks.map Event.invalidate ++
        rd.trueDomains.map (fun d =>
          Event.invalidate (invalidateRelatedDomain d))) ++
        (match opts.onSuccess with
          | some _ => [Event.callerSuccess]
          | none => []) := by
    cases h : opts.onSuccess <;> simp [buildCustomOptions, h]
  have hpre : ∀ e ∈ (ks.map Event.invalidate ++
      rd.trueDomains.map (fun d =>
        Event.invalidate (invalidateRelatedDomain d))),
      e ≠ Event.callerSuccess := by
    intro e he
    rcases List.mem_append.1 he with h | h <;>
      · rcases List.mem_map.1 h with ⟨x, _, rfl⟩
        simp
  have hbefore : beforeCallerSuccess
      ((buildCustomOptions (some ks) (some opts) (some rd)).onSuccess
        args).1 =
      ks.map Event.invalidate ++
        rd.trueDomains.map (fun d =>
          Event.invalidate (invalidateRelatedDomain d)) := by
    rw [hevs, beforeCallerSuccess_append _ _ hpre]
    cases h : opts.onSuccess <;> simp [beforeCallerSuccess, List.takeWhile]
  refine ⟨?_, ?_, ?_, ?_⟩
  · intro k hk
    rw [hbefore]
    exact List.mem_append.2 (Or.inl (List.mem_map.2 ⟨k, hk, rfl⟩))
  · intro d hd
    rw [hbefore]
    refine List.mem_append.2 (Or.inr (List.mem_map.2 ⟨d, ?_, rfl⟩))
    have hall : d ∈ RelatedDomain.enumerate := by
      cases d <;> simp [RelatedDomain.enumerate]
    simp [RelatedDomains.trueDomains, List.mem_filter, hall, hd]
  · intro d; cases d <;> rfl
  · decide

/-- Claim C1 witness: a concrete mutation with one query key, the `product`
domain flagged, and a caller `onSuccess`: both the key and the product
domain's key set are invalidated before the caller callback. -/
theorem buildCustomOptions_invalidates_before_callback_witness :
    Event.invalidate ["posts"] ∈ beforeCallerSuccess
      ((buildCustomOptions (some [["posts"]])
        (some ({ onSuccess := some (fun _ => 7) } : MutationOptions Unit Nat))
        (some { product := some true })).onSuccess ()).1 ∧
    Event.invalidate (invalidateRelatedDomain RelatedDomain.product) ∈
      beforeCallerSuccess
        ((buildCustomOptions (some [["posts"]])
          (some ({ onSuccess := some (fun _ => 7) } :
            MutationOptions Unit Nat))
          (some { product := some true })).onSuccess ()).1 :=
  ⟨(buildCustomOptions_invalidates_before_callback [["posts"]]
      { product := some true } { onSuccess := some (fun _ => 7) } ()).1
      ["posts"] (by simp),
   (buildCustomOptions_invalidates_before_callback [["posts"]]
      { product := some true } { onSuccess := some (fun _ => 7) } ()).2.1
      RelatedDomain.product rfl⟩

/-- Claim C2 counterexample: not every mutation hook of the library is
cache-aware — the store hook `useCreateReturn` of `part_003` hands the caller
options straight to `useMutation` and invalidates no query key at all on
success. -/
theorem createReturn_no_invalidation :
    ¬ ∀ h : MutationHook, MutationHook.invalidatedKeys h ≠ [] :=
  fun hall => hall MutationHook.createReturn rfl

/-- Claim C2 (amended): every mutation hook in the provided hooks-library
source except the store hook `useCreateReturn` is cache-aware — on success it
invalidates exactly the query keys of the cached data the mutation affects
(the key lists of its call site, plus the flagged related-domain key sets for
the custom hooks) — while `useCreateReturn` invalidates nothing. -/
theorem mutationHooks_cache_awareness :
    (∀ h : MutationHook, h.invalidatedKeys = specInvalidations h) ∧
    MutationHook.createStockLocation.invalidatedKeys ≠ [] ∧
    (∀ id : String,
      (MutationHook.updateStockLocation id).invalidatedKeys ≠ [] ∧
      (MutationHook.deleteStockLocation id).invalidatedKeys ≠ []) ∧
    (∀ (qk : List QueryKey) (rd : Option RelatedDomains), qk ≠ [] →
      (MutationHook.adminCustomPost qk rd).invalidatedKeys ≠ [] ∧
      (MutationHook.adminCustomDelete qk rd).invalidatedKeys ≠ []) ∧
    MutationHook.createReturn.invalidatedKeys = [] := by
  have hmain : ∀ h : MutationHook, h.invalidatedKeys = specInvalidations h := by
    intro h
    cases h with
    | adminCustomPost qk rd =>
      rcases rd with _ | r <;>
        simp [MutationHook.invalidatedKeys, MutationHook.builtOptions,
          buildCustomOptions, BuiltOptions.invalidations, specInvalidations,
          relatedDomainInvalidations, List.filterMap_append,
          Event.invalidatedKey]
    | adminCustomDelete qk rd =>
      rcases rd with _ | r <;>
        simp [MutationHook.invalidatedKeys, MutationHook.builtOptions,
          buildCustomOptions, BuiltOptions.invalidations, specInvalidations,
          relatedDomainInvalidations, List.filterMap_append,
          Event.invalidatedKey]
    | _ =>
      simp [MutationHook.invalidatedKeys, MutationHook.builtOptions,
        buildOptions, buildCustomOptions, BuiltOptions.invalidations,
        specInvalidations, Event.invalidatedKey]
  refine ⟨hmain, ?_, ?_, ?_, hmain MutationHook.createReturn⟩
  · simp [hmain, specInvalidations]
  · intro id
    constructor <;> simp [hmain, specInvalidations]
  · intro qk rd hqk
    constructor <;> simp [hmain, specInvalidations, hqk]

/-- Claim C2 witness: the concrete hooks — the stock-location update hook at
id `"sloc_1"` matches its promised keys, and a custom post hook given one
query key invalidates a nonempty key set. -/
theorem mutationHooks_cache_awareness_witness :
    (MutationHook.updateStockLocation "sloc_1").invalidatedKeys =
      specInvalidations (MutationHook.updateStockLocation "sloc_1") ∧
    (MutationHook.adminCustomPost [["posts"]] none).invalidatedKeys ≠ [] :=
  ⟨mutationHooks_cache_awareness.1 (MutationHook.updateStockLocation "sloc_1"),
   (mutationHooks_cache_awareness.2.2.2.1 [["posts"]] none (by decide)).1⟩

/-- Claim C8: for every stock-location id, the delete-stock-location mutation
(with any caller options) invalidates exactly the stock-location list keys,
the stock-location detail key for that id, the entire variant domain key set,
and the product list keys, in that order. -/
theorem deleteStockLocation_invalidates_exactly {Args Ret : Type}
    (id : String) (opts : Option (MutationOptions Args Ret)) (args : Args) :
    ((MutationHook.deleteStockLocation id).builtOptions opts).invalidations
        args =
      [adminStockLocationsKeys.lists, adminStockLocationsKeys.detail id,
       adminVariantKeys.all, adminProductKeys.lists] := by
  rcases opts with _ | o
  · simp [MutationHook.builtOptions, buildOptions, buildCustomOptions,
      BuiltOptions.invalidations, Event.invalidatedKey]
  · rcases h : o.onSuccess with _ | f <;>
      simp [MutationHook.builtOptions, buildOptions, buildCustomOptions,
        BuiltOptions.invalidations, Event.invalidatedKey, h]

theorem applyPagination_subset {α : Type} (cfg : FindConfig) (xs : List α) :
    applyPagination cfg xs ⊆ xs := by
  unfold applyPagination
  rcases cfg with ⟨sk, tk, sel⟩
  rcases sk with _ | n <;> rcases tk with _ | m <;> simp <;>
    first
      | exact List.Subset.refl _
      | exact List.take_subset _ _
      | exact List.drop_subset _ _
      | exact fun a ha => List.drop_subset _ _ (List.take_subset _ _ ha)

/-- Claim C3: `retrievePriceList` returns a stored price list with the given
id when one exists, fails with `PriceList with id: <id> was not found` when
none has it, fails with `"priceListId" must be defined` on an undefined id,
and `updatePriceLists` fails with `PriceList with id "<id>" not found` on an
unknown id. -/
theorem retrievePriceList_spec (store : List PriceList) (id : String) :
    (∀ pl, pl ∈ store → pl.id = id →
      ∃ r, retrievePriceList store (some id) = .ok r ∧ r.id = id ∧
        r ∈ store) ∧
    ((∀ pl ∈ store, pl.id ≠ id) →
      retrievePriceList store (some id) =
        .error ("PriceList with id: " ++ id ++ " was not found")) ∧
    retrievePriceList store none = .error "\"priceListId\" must be defined" ∧
    (∀ u : PriceListUpdate, (∀ pl ∈ store, pl.id ≠ u.id) →
      updatePriceLists store [u] =
        .error ("PriceList with id \"" ++ u.id ++ "\" not found")) := by
  refine ⟨?_, ?_, rfl, ?_⟩
  · intro pl hmem hid
    have hsome : (store.find? (fun q => q.id = id)).isSome :=
      List.find?_isSome.mpr ⟨pl, hmem, by simp [hid]⟩
    rcases Option.isSome_iff_exists.mp hsome with ⟨r, hr⟩
    refine ⟨r, by simp [retrievePriceList, hr], ?_,
      List.mem_of_find?_eq_some hr⟩
    have := List.find?_some hr
    simpa using this
  · intro hnone
    have hfind : store.find? (fun q => q.id = id) = none :=
      List.find?_eq_none.mpr (fun a ha => by simp [hnone a ha])
    simp [retrievePriceList, hfind]
  · intro u hu
    have hany : store.any (fun pl => pl.id = u.id) = false := by
      simp only [List.any_eq_false]
      intro a ha
      simp [hu a ha]
    simp [updatePriceLists, hany]

/-- Claim C3 witness: on the two-row fixture store of the tests, retrieval of
`price-list-1` succeeds, retrieval of `does-not-exist` and an undefined id
fail with the exact messages, and updating `does-not-exist` fails with the
exact message. -/
theorem retrievePriceList_spec_witness :
    (∃ r, retrievePriceList
        [{ id := "price-list-1" }, { id := "price-list-2" }]
        (some "price-list-1") = .ok r ∧ r.id = "price-list-1" ∧
        r ∈ [({ id := "price-list-1" } : PriceList),
             { id := "price-list-2" }]) ∧
    retrievePriceList [{ id := "price-list-1" }, { id := "price-list-2" }]
        (some "does-not-exist") =
      .error "PriceList with id: does-not-exist was not found" ∧
    retrievePriceList [{ id := "price-list-1" }, { id := "price-list-2" }]
        none =
      .error "\"priceListId\" must be defined" ∧
    updatePriceLists [{ id := "price-list-1" }, { id := "price-list-2" }]
        [{ id := "does-not-exist" }] =
      .error "PriceList with id \"does-not-exist\" not found" :=
  ⟨(retrievePriceList_spec
      [{ id := "price-list-1" }, { id := "price-list-2" }]
      "price-list-1").1 { id := "price-list-1" } (by decide) rfl,
   (retrievePriceList_spec
      [{ id := "price-list-1" }, { id := "price-list-2" }]
      "does-not-exist").2.1 (by decide),
   (retrievePriceList_spec
      [{ id := "price-list-1" }, { id := "price-list-2" }]
      "does-not-exist").2.2.1,
   (retrievePriceList_spec
      [{ id := "price-list-1" }, { id := "price-list-2" }]
      "does-not-exist").2.2.2 { id := "does-not-exist" } (by decide)⟩

/-- Claim C4: `listAndCountPriceLists` pairs the filtered rows — paginated by
`skip`/`take` and restricted to the selected fields — with the total count of
filtered rows, the count being unaffected by `skip` and `take`. -/
theorem listAndCountPriceLists_spec (store : List PriceList)
    (f : PriceListFilter) (cfg : FindConfig) :
    (listAndCountPriceLists store f cfg).2 =
      (listPriceLists store f).length ∧
    (listAndCountPriceLists store f cfg).2 =
      (listAndCountPriceLists store f
        { cfg with skip := none, take := none }).2 ∧
    (∀ sk t, cfg.skip = some sk → cfg.take = some t →
      (listAndCountPriceLists store f cfg).1 =
        (((listPriceLists store f).drop sk).take t).map
          (selectFields cfg.select)) ∧
    (∀ row ∈ (listAndCountPriceLists store f cfg).1,
      ∃ pl, pl ∈ store ∧ matchesFilter f pl = true ∧
        row = selectFields cfg.select pl) ∧
    (∀ cols, cfg.select = some cols →
      ∀ row ∈ (listAndCountPriceLists store f cfg).1,
        ∀ kv ∈ row, kv.1 ∈ cols) := by
  refine ⟨rfl, rfl, ?_, ?_, ?_⟩
  · intro sk t hsk ht
    simp [listAndCountPriceLists, applyPagination, hsk, ht]
  · intro row hrow
    simp only [listAndCountPriceLists, List.mem_map] at hrow
    rcases hrow with ⟨pl, hpl, rfl⟩
    have hplm : pl ∈ listPriceLists store f := applyPagination_subset _ _ hpl
    rw [listPriceLists, List.mem_filter] at hplm
    exact ⟨pl, hplm.1, hplm.2, rfl⟩
  · intro cols hcols row hrow kv hkv
    simp only [listAndCountPriceLists, List.mem_map] at hrow
    rcases hrow with ⟨pl, hpl, rfl⟩
    rw [hcols] at hkv
    rw [selectFields] at hkv
    simp only [List.mem_filter] at hkv
    simpa using hkv.2

/-- Claim C4 witness: on the two-row fixture store with `skip 1, take 1,
select ["id"]`, the count stays the length of the full match and every
returned field is among the selected columns. -/
theorem listAndCountPriceLists_spec_witness :
    (listAndCountPriceLists
        [{ id := "price-list-1" }, { id := "price-list-2" }] {}
        { skip := some 1, take := some 1, select := some ["id"] }).2 =
      (listPriceLists
        [{ id := "price-list-1" }, { id := "price-list-2" }] {}).length ∧
    (listAndCountPriceLists
        [{ id := "price-list-1" }, { id := "price-list-2" }] {}
        { skip := some 1, take := some 1, select := some ["id"] }).1 =
      (((listPriceLists
          [{ id := "price-list-1" }, { id := "price-list-2" }] {}).drop
            1).take 1).map (selectFields (some ["id"])) ∧
    (∀ row ∈ (listAndCountPriceLists
        [{ id := "price-list-1" }, { id := "price-list-2" }] {}
        { skip := some 1, take := some 1, select := some ["id"] }).1,
      ∀ kv ∈ row, kv.1 ∈ ["id"]) :=
  ⟨(listAndCountPriceLists_spec
      [{ id := "price-list-1" }, { id := "price-list-2" }] {}
      { skip := some 1, take := some 1, select := some ["id"] }).1,
   (listAndCountPriceLists_spec
      [{ id := "price-list-1" }, { id := "price-list-2" }] {}
      { skip := some 1, take := some 1, select := some ["id"] }).2.2.1
      1 1 rfl rfl,
   (listAndCountPriceLists_spec
      [{ id := "price-list-1" }, { id := "price-list-2" }] {}
      { skip := some 1, take := some 1, select := some ["id"] }).2.2.2.2
      ["id"] rfl⟩

/-- Claim C5: deleting an existing price-list id and then listing by that id
round-trips to no results. -/
theorem deleteThenListById_empty (store : List PriceList) (id : String)
    (hexists : ∃ pl, pl ∈ store ∧ pl.id = id) :
    listPriceLists (deletePriceLists store [id]) { id := some [id] } = [] := by
  clear hexists
  rw [listPriceLists, List.filter_eq_nil_iff]
  intro pl hpl
  rw [deletePriceLists, List.mem_filter] at hpl
  have : pl.id ≠ id := by simpa using hpl.2
  simp [matchesFilter, this]

/-- Claim C5 witness: deleting `price-list-1` from the fixture store and then
listing by its id gives the empty list. -/
theorem deleteThenListById_empty_witness :
    listPriceLists
      (deletePriceLists
        [{ id := "price-list-1" }, { id := "price-list-2" }]
        ["price-list-1"])
      { id := some ["price-list-1"] } = [] :=
  deleteThenListById_empty
    [{ id := "price-list-1" }, { id := "price-list-2" }] "price-list-1"
    ⟨{ id := "price-list-1" }, by decide, rfl⟩

theorem validateRegionId_ok_iff (v : Option QueryVal) (ro : Option String) :
    validateRegionId v = .ok ro ↔
      (v = none ∧ ro = none) ∨ ∃ s, v = some (.str s) ∧ ro = some s := by
  rcases v with _ | w
  · simp [validateRegionId, eq_comm]
  · rcases w with s | l <;> simp [validateRegionId, eq_comm]

theorem validateOptionalBoolean_ok_iff (label : String) (v : Option QueryVal)
    (bo : Option Bool) :
    validateOptionalBoolean label v = .ok bo ↔
      (v = none ∧ bo = none) ∨
        ∃ w b, v = some w ∧ mapOptionalBoolean w = some b ∧ bo = some b := by
  rcases v with _ | w
  · simp [validateOptionalBoolean, eq_comm]
  · rcases hm : mapOptionalBoolean w with _ | b
    · simp [validateOptionalBoolean, hm]
    · cases b <;> simp [validateOptionalBoolean, hm, eq_comm]

theorem validateParams_ok_iff (q : RawShippingOptionsQuery)
    (p : AdminGetShippingOptionsParams) :
    validateShippingOptionsParams q = .ok p ↔
      validateRegionId q.region_id = .ok p.region_id ∧
      validateOptionalBoolean "is_return" q.is_return = .ok p.is_return ∧
      validateOptionalBoolean "admin_only" q.admin_only =
        .ok p.admin_only := by
  obtain ⟨pr, pi, pa⟩ := p
  cases hr : validateRegionId q.region_id <;>
    cases hi : validateOptionalBoolean "is_return" q.is_return <;>
      cases ha : validateOptionalBoolean "admin_only" q.admin_only <;>
        simp [validateShippingOptionsParams, hr, hi, ha, Bind.bind,
          Except.bind, Pure.pure, Except.pure,
          AdminGetShippingOptionsParams.mk.injEq]

/-- Claim C6: the GET shipping-options handler validates its query before
delegating — a failed validation means the service is never called (empty
call log) — and on success calls `listAndCount` once with the validated
params and the default fields/relations and responds with status 200, the
`shipping_options` array and the `count`; validation accepts `region_id` only
as a plain string and `is_return`/`admin_only` only through the
optional-boolean mapper. -/
theorem listShippingOptions_route_spec
    (svc : AdminGetShippingOptionsParams → SOListConfig →
      List ShippingOption × Nat)
    (q : RawShippingOptionsQuery) :
    (∀ m, validateShippingOptionsParams q = .error m →
      listShippingOptionsHandler svc q = ([], .validationFailure m)) ∧
    (∀ p, validateShippingOptionsParams q = .ok p →
      listShippingOptionsHandler svc q =
        ([(p, shippingOptionListConfig)],
         .ok 200 (svc p shippingOptionListConfig).1
           (svc p shippingOptionListConfig).2)) ∧
    (∀ p, validateShippingOptionsParams q = .ok p →
      ((q.region_id = none ∧ p.region_id = none) ∨
        (∃ s, q.region_id = some (.str s) ∧ p.region_id = some s)) ∧
      ((q.is_return = none ∧ p.is_return = none) ∨
        (∃ v b, q.is_return = some v ∧ mapOptionalBoolean v = some b ∧
          p.is_return = some b)) ∧
      ((q.admin_only = none ∧ p.admin_only = none) ∨
        (∃ v b, q.admin_only = some v ∧ mapOptionalBoolean v = some b ∧
          p.admin_only = some b))) ∧
    (∀ l, q.region_id = some (.arr l) →
      ∀ p, validateShippingOptionsParams q ≠ .ok p) ∧
    (∀ v, q.is_return = some v → mapOptionalBoolean v = none →
      ∀ p, validateShippingOptionsParams q ≠ .ok p) ∧
    (∀ v, q.admin_only = some v → mapOptionalBoolean v = none →
      ∀ p, validateShippingOptionsParams q ≠ .ok p) := by
  refine ⟨?_, ?_, ?_, ?_, ?_, ?_⟩
  · intro m hm; simp [listShippingOptionsHandler, hm]
  · intro p hp; simp [listShippingOptionsHandler, hp]
  · intro p hp
    rcases (validateParams_ok_iff q p).mp hp with ⟨hr, hi, ha⟩
    exact ⟨(validateRegionId_ok_iff _ _).mp hr,
      (validateOptionalBoolean_ok_iff _ _ _).mp hi,
      (validateOptionalBoolean_ok_iff _ _ _).mp ha⟩
  · intro l hl p hp
    rcases (validateParams_ok_iff q p).mp hp with ⟨hr, -, -⟩
    rcases (validateRegionId_ok_iff _ _).mp hr with ⟨h1, -⟩ | ⟨s, h1, -⟩ <;>
      simp [hl] at h1
  · intro v hv hmap p hp
    rcases (validateParams_ok_iff q p).mp hp with ⟨-, hi, -⟩
    rcases (validateOptionalBoolean_ok_iff _ _ _).mp hi with
      ⟨h1, -⟩ | ⟨w, b, h1, h2, -⟩
    · simp [hv] at h1
    · rw [hv] at h1
      injection h1 with h1
      subst h1
      simp [hmap] at h2
  · intro v hv hmap p hp
    rcases (validateParams_ok_iff q p).mp hp with ⟨-, -, ha⟩
    rcases (validateOptionalBoolean_ok_iff _ _ _).mp ha with
      ⟨h1, -⟩ | ⟨w, b, h1, h2, -⟩
    · simp [hv] at h1
    · rw [hv] at h1
      injection h1 with h1
      subst h1
      simp [hmap] at h2

/-- Claim C6 witness: a valid query (`region_id` a string, `is_return` the
string `"true"`) produces one service call and a 200 response with the array
and count, and a query whose `region_id` is an array never validates. -/
theorem listShippingOptions_route_spec_witness :
    listShippingOptionsHandler (fun _ _ => (["so_1"], 3))
        { region_id := some (.str "reg_1"),
          is_return := some (.str "true") } =
      ([({ region_id := some "reg_1", is_return := some true },
          shippingOptionListConfig)],
       .ok 200 ["so_1"] 3) ∧
    (∀ p, validateShippingOptionsParams
        { region_id := some (.arr ["a", "b"]) } ≠ .ok p) :=
  ⟨(listShippingOptions_route_spec (fun _ _ => (["so_1"], 3))
      { region_id := some (.str "reg_1"),
        is_return := some (.str "true") }).2.1
      { region_id := some "reg_1", is_return := some true } rfl,
   fun p =>
    (listShippingOptions_route_spec (fun _ _ => (["so_1"], 3))
      { region_id := some (.arr ["a", "b"]) }).2.2.2.1
      ["a", "b"] rfl p⟩

/-- Claim C7: the DELETE product handler always runs the service delete for
the request's path id, inside a single transaction opened at the start, and
when the service call succeeds it responds with exactly
`{ id, object: "product", deleted: true }`; a service error propagates
instead. -/
theorem deleteProduct_route_spec {E : Type}
    (serviceDelete : String → Except E Unit) (id : String) :
    DeleteProductEvent.serviceDelete id ∈
      (deleteProductHandler serviceDelete id).1 ∧
    (deleteProductHandler serviceDelete id).1.head? =
      some DeleteProductEvent.transactionStart ∧
    (deleteProductHandler serviceDelete id).1.count
      DeleteProductEvent.transactionStart = 1 ∧
    (serviceDelete id = .ok () →
      deleteProductHandler serviceDelete id =
        ([.transactionStart, .serviceDelete id, .transactionEnd],
         .ok { id := id, object := "product", deleted := true })) ∧
    (∀ e, serviceDelete id = .error e →
      (deleteProductHandler serviceDelete id).2 = .error e) := by
  refine ⟨?_, ?_, ?_, ?_, ?_⟩ <;>
    cases h : serviceDelete id <;>
      simp [deleteProductHandler, h, List.count_cons]

/-- Claim C7 witness: with an always-succeeding service, deleting `prod_1`
records the delete inside the transaction and responds with the exact
body. -/
theorem deleteProduct_route_spec_witness :
    DeleteProductEvent.serviceDelete "prod_1" ∈
      (deleteProductHandler (fun _ => (Except.ok () : Except String Unit))
        "prod_1").1 ∧
    deleteProductHandler (fun _ => (Except.ok () : Except String Unit))
        "prod_1" =
      ([.transactionStart, .serviceDelete "prod_1", .transactionEnd],
       .ok { id := "prod_1", object := "product", deleted := true }) :=
  ⟨(deleteProduct_route_spec (fun _ => (Except.ok () : Except String Unit))
      "prod_1").1,
   (deleteProduct_route_spec (fun _ => (Except.ok () : Except String Unit))
      "prod_1").2.2.2.1 rfl⟩

end Medusa
